import Mathlib

/-!
Shallow embedding of the download pipeline of `twd_webisodes_gui.py`
(classes `AlternativeSourceFinder` and `EnhancedDownloader`).

Network and filesystem effects (yt-dlp fetches, archive.org searches,
source probes) are modelled as oracles gathered in an `Env` record;
everything else is translated directly from the Python source.
-/

namespace TWD

/-- Dataclass `WebisodeSource`: a download source for a webisode. -/
structure WebisodeSource where
  url : String
  source_type : String
  quality : String := "best"
  priority : ℤ := 1
  working : Option Bool := none
deriving DecidableEq, Repr

/-- Dataclass `Webisode`: a single webisode with multiple sources. -/
structure Webisode where
  title : String
  series : String
  episode_number : ℤ
  description : String
  sources : List WebisodeSource
  duration : Option String := none
  year : Option ℤ := none
deriving DecidableEq, Repr

/-- The `download_stats` dictionary of `EnhancedDownloader`. -/
structure Stats where
  attempted : ℕ
  successful : ℕ
  failed : ℕ
  alternatives_used : ℕ
deriving DecidableEq, Repr

/-- Outcome of one yt-dlp download attempt against one source:
`ydl.download` returns normally, raises `yt_dlp.DownloadError`, or raises
some other exception. -/
inductive AttemptOutcome where
  | success
  | dlError
  | otherError
deriving DecidableEq, Repr

/-- Outcome of the `ydl.extract_info` call inside `test_source`: it raises,
or returns a value that is truthy (`ok true`) or falsy (`ok false`). -/
inductive ExtractResult where
  | err
  | ok (info : Bool)
deriving DecidableEq, Repr

/-- Oracles for all external effects of the downloader. -/
structure Env where
  /-- Outcome of the yt-dlp download of attempt number `a` against a source
  (the body of the `try` in `download_with_source_retry`). -/
  fetchAttempt : WebisodeSource → ℕ → AttemptOutcome
  /-- The `random.uniform(0, 1)` draw used by `exponential_backoff` at each
  retry of a source. -/
  jitter : WebisodeSource → ℕ → ℚ
  /-- Result list of `AlternativeSourceFinder.search_archive_org`. -/
  search_archive_org : String → List String
  /-- Result list of `AlternativeSourceFinder.search_alternative_youtube`. -/
  search_alternative_youtube : String → List String
  /-- Outcome of the `extract_info` probe inside `test_source`. -/
  extract : WebisodeSource → ExtractResult

/-- `AlternativeSourceFinder.exponential_backoff`:
`base_delay * (2 ** attempt) + random.uniform(0, 1)`, with the random draw
made explicit as `jit`. -/
def exponential_backoff (attempt : ℕ) (base_delay : ℚ) (jit : ℚ) : ℚ :=
  base_delay * 2 ^ attempt + jit

/-- Events recorded by the retry loop of `download_with_source_retry`:
a download attempt (with its 0-based index and the socket timeout it
configures) or a backoff sleep after a failed attempt. -/
inductive RetryEvent where
  | attempt (idx : ℕ) (timeout : ℕ)
  | backoff (idx : ℕ) (delay : ℚ)
deriving DecidableEq, Repr

/-- The `for attempt in range(max_attempts)` loop of
`download_with_source_retry`, written with explicit fuel: `i` is the current
attempt index and `fuel` the number of remaining iterations
(`fuel = max_attempts - i`).  Timeout is `30 + attempt * 15`; a failed
attempt other than the last sleeps for an exponential backoff (base 2.0
after a `DownloadError`, base 1.0 after any other exception). -/
def retryLoop (fetch : ℕ → AttemptOutcome) (jit : ℕ → ℚ) (maxA : ℕ) :
    ℕ → ℕ → Bool × List RetryEvent
  | _, 0 => (false, [])
  | i, fuel + 1 =>
    match fetch i with
    | .success => (true, [.attempt i (30 + i * 15)])
    | .dlError =>
      if i < maxA - 1 then
        let r := retryLoop fetch jit maxA (i + 1) fuel
        (r.1, .attempt i (30 + i * 15) :: .backoff i (exponential_backoff i 2 (jit i)) :: r.2)
      else
        let r := retryLoop fetch jit maxA (i + 1) fuel
        (r.1, .attempt i (30 + i * 15) :: r.2)
    | .otherError =>
      if i < maxA - 1 then
        let r := retryLoop fetch jit maxA (i + 1) fuel
        (r.1, .attempt i (30 + i * 15) :: .backoff i (exponential_backoff i 1 (jit i)) :: r.2)
      else
        let r := retryLoop fetch jit maxA (i + 1) fuel
        (r.1, .attempt i (30 + i * 15) :: r.2)

/-- `EnhancedDownloader.download_with_source_retry` for one source, given the
per-attempt oracles of that source: returns whether the download succeeded
together with the trace of attempts and backoff sleeps. -/
def download_with_source_retry (fetch : ℕ → AttemptOutcome) (jit : ℕ → ℚ)
    (max_attempts : ℕ) : Bool × List RetryEvent :=
  retryLoop fetch jit max_attempts 0 max_attempts

/-- `EnhancedDownloader.download_with_source`: delegates to the retry logic
with `max_attempts=3`. -/
def download_with_source (env : Env) (s : WebisodeSource) : Bool :=
  (download_with_source_retry (env.fetchAttempt s) (env.jitter s) 3).1

/-- Body of `EnhancedDownloader.test_source` before its `except` handler:
`extract_info` either raises (`Except.error`), or yields `info`; when `info`
is truthy the source is marked working and `True` is returned, otherwise the
function falls through to the final `return False` without touching
`working`. -/
def test_source_inner (r : ExtractResult) (s : WebisodeSource) :
    Except Unit (Bool × WebisodeSource) :=
  match r with
  | .err => .error ()
  | .ok true => .ok (true, { s with working := some true })
  | .ok false => .ok (false, s)

/-- `EnhancedDownloader.test_source`: the `except Exception` handler turns any
error from the probe body into `working = False` and a `False` return, so the
caller always gets a plain boolean. -/
def test_source (r : ExtractResult) (s : WebisodeSource) : Bool × WebisodeSource :=
  match test_source_inner r s with
  | .ok v => v
  | .error _ => (false, { s with working := some false })

/-- A character-list version of Python string containment: `startsWithL p l`
holds when `p` is an initial segment of `l`. -/
def startsWithL : List Char → List Char → Bool
  | [], _ => true
  | _ :: _, [] => false
  | a :: as, b :: bs => a == b && startsWithL as bs

/-- `containsSub needle hay`: `needle` occurs as a contiguous substring of
`hay` (the Python `needle in hay` test on strings; the empty needle is
contained in everything). -/
def containsSub (needle : List Char) : List Char → Bool
  | [] => needle.isEmpty
  | c :: t => startsWithL needle (c :: t) || containsSub needle t

/-- Python `s.lower()` restricted to ASCII, as a character list. -/
def lowerL (s : String) : List Char := s.toList.map Char.toLower

/-- The fixed TWD keyword list of `_is_relevant_result`. -/
def twd_keywords : List String :=
  ["walking dead", "twd", "webisode", "torn apart", "cold storage",
   "the oath", "red machete", "flight 462", "passage", "althea",
   "madman", "dead in the water", "fear"]

/-- `AlternativeSourceFinder._is_relevant_result`: reject empty titles, accept
a case-insensitive direct match of the query, otherwise accept when some TWD
keyword occurs in the lowered title. -/
def is_relevant_result (query title : String) : Bool :=
  if title = "" then false
  else
    let title_lower := lowerL title
    let query_lower := lowerL query
    if containsSub query_lower title_lower then true
    else twd_keywords.any (fun k => containsSub k.toList title_lower)

/-- The query variations built by `AlternativeSourceFinder.find_alternatives`. -/
def queries (w : Webisode) : List String :=
  [w.title,
   "walking dead " ++ w.title,
   "twd " ++ w.series ++ " " ++ toString w.episode_number,
   w.series ++ " episode " ++ toString w.episode_number]

/-- The accumulation loop of `find_alternatives`: for each query, append the
archive.org results (priority 1) then the alternative YouTube results
(priority 2), stopping once at least 8 alternatives were gathered. -/
def gatherAlts (env : Env) : List String → List WebisodeSource → List WebisodeSource
  | [], acc => acc
  | q :: qs, acc =>
    let acc1 := acc ++ (env.search_archive_org q).map
      (fun u => { url := u, source_type := "archive", priority := 1 })
    let acc2 := acc1 ++ (env.search_alternative_youtube q).map
      (fun u => { url := u, source_type := "youtube", priority := 2 })
    if 8 ≤ acc2.length then acc2 else gatherAlts env qs acc2

/-- The duplicate-removal pass of `find_alternatives`: keep the first
occurrence of each URL, in order (`seen` is the set of URLs already kept). -/
def dedupeByUrl : List WebisodeSource → List String → List WebisodeSource
  | [], _ => []
  | s :: rest, seen =>
    if seen.contains s.url then dedupeByUrl rest seen
    else s :: dedupeByUrl rest (s.url :: seen)

/-- `AlternativeSourceFinder.find_alternatives`: gather alternatives from the
search oracles over the query variations, then remove duplicate URLs. -/
def find_alternatives (env : Env) (w : Webisode) : List WebisodeSource :=
  dedupeByUrl (gatherAlts env (queries w) []) []

/-- The ordering key of `sorted(webisode.sources, key=lambda x: x.priority)`. -/
def priorityLE (a b : WebisodeSource) : Prop := a.priority ≤ b.priority

instance : DecidableRel priorityLE := fun a b => Int.decLe a.priority b.priority

instance : IsTotal WebisodeSource priorityLE :=
  ⟨fun a b => Int.le_total a.priority b.priority⟩

instance : IsTrans WebisodeSource priorityLE :=
  ⟨fun _ _ _ h1 h2 => le_trans h1 h2⟩

/-- `sorted(webisode.sources, key=lambda x: x.priority)`: a stable sort by
ascending priority. -/
def sortByPriority (l : List WebisodeSource) : List WebisodeSource :=
  List.insertionSort priorityLE l

/-- Observable events of one `download_webisode` run: a `download_with_source`
call on a source, the single `find_alternatives` call, or a `test_source`
probe of a discovered source. -/
inductive Event where
  | fetch (s : WebisodeSource)
  | discover
  | probe (s : WebisodeSource)
deriving DecidableEq, Repr

/-- A `for source in sources: if self.download_with_source(...): return True`
loop: returns whether some source succeeded, together with the list of
sources actually attempted, in order (stopping at the first success). -/
def trySources (env : Env) : List WebisodeSource → Bool × List WebisodeSource
  | [] => (false, [])
  | s :: rest =>
    if download_with_source env s then (true, [s])
    else
      let r := trySources env rest
      (r.1, s :: r.2)

/-- The alternative-testing loop of `download_webisode`: run `test_source` on
each candidate and keep (in order) the mutated sources whose probe returned
`True` (`working_alternatives`). -/
def probeFilter (env : Env) (l : List WebisodeSource) : List WebisodeSource :=
  l.filterMap (fun s =>
    let r := test_source (env.extract s) s
    if r.1 then some r.2 else none)

/-- Terminal step of the alternatives branch of `download_webisode`: given
the known sources attempted (`ks`), the alternatives probed (`tested`) and
the result of trying the probe-passing alternatives, produce the return
value, the stats update of the `alternative_sources` branch
(`alternatives_used` was bumped, then `successful` or `failed`), and the
trace. -/
def finishAlt (stats : Stats) (ks tested : List WebisodeSource) :
    Bool × List WebisodeSource → Bool × Stats × List Event
  | (true, fs) =>
    (true,
     { stats with attempted := stats.attempted + 1, successful := stats.successful + 1,
                  alternatives_used := stats.alternatives_used + 1 },
     ks.map Event.fetch ++ Event.discover :: (tested.map Event.probe ++ fs.map Event.fetch))
  | (false, fs) =>
    (false,
     { stats with attempted := stats.attempted + 1, failed := stats.failed + 1,
                  alternatives_used := stats.alternatives_used + 1 },
     ks.map Event.fetch ++ Event.discover :: (tested.map Event.probe ++ fs.map Event.fetch))

/-- The part of `download_webisode` after all known sources failed: if
`find_alternatives` returned nothing the item fails; otherwise
`alternatives_used` is bumped, the first five alternatives are probed, and
the probe-passing ones are tried in order. -/
def discoveryPhase (env : Env) (ks : List WebisodeSource) (alts : List WebisodeSource)
    (stats : Stats) : Bool × Stats × List Event :=
  match alts with
  | [] =>
    (false,
     { stats with attempted := stats.attempted + 1, failed := stats.failed + 1 },
     ks.map Event.fetch ++ [Event.discover])
  | a :: rest =>
    let tested := (a :: rest).take 5
    finishAlt stats ks tested (trySources env (probeFilter env tested))

/-- `EnhancedDownloader.download_webisode`: bump `attempted`, try the known
sources in ascending priority order, and on total failure call
`find_alternatives` and enter the discovery phase.  Returns the result, the
updated stats, and the event trace.  The `max_retries` parameter is part of
the Python signature but never read. -/
def download_webisode (env : Env) (w : Webisode) (stats : Stats)
    (max_retries : ℕ) : Bool × Stats × List Event :=
  match trySources env (sortByPriority w.sources) with
  | (true, ks) =>
    (true,
     { stats with attempted := stats.attempted + 1, successful := stats.successful + 1 },
     ks.map Event.fetch)
  | (false, ks) =>
    discoveryPhase env ks (find_alternatives env w) stats

/-! Section: Concrete inputs used by witnesses and counterexamples -/

/-- A generic known source used by concrete runs. -/
def kSrc : WebisodeSource := { url := "k1", source_type := "youtube", priority := 1 }

/-- A source used to exercise `test_source` on its own. -/
def probeSrc : WebisodeSource := { url := "p1", source_type := "archive" }

/-- An environment in which every download attempt succeeds at once and no
search returns anything. -/
def envOK : Env :=
  { fetchAttempt := fun _ _ => .success
    jitter := fun _ _ => 0
    search_archive_org := fun _ => []
    search_alternative_youtube := fun _ => []
    extract := fun _ => .ok true }

/-- A webisode with the single known source `kSrc`. -/
def wOK : Webisode :=
  { title := "T", series := "S", episode_number := 1, description := "d", sources := [kSrc] }

/-- Environment for the ordering counterexample: every download fails, the
first query finds one YouTube alternative (priority 2) and the second query
one archive alternative (priority 1), and every probe succeeds. -/
def envC2 : Env :=
  { fetchAttempt := fun _ _ => .dlError
    jitter := fun _ _ => 0
    search_archive_org := fun q => if q = "walking dead T" then ["a1"] else []
    search_alternative_youtube := fun q => if q = "T" then ["y1"] else []
    extract := fun _ => .ok true }

/-- Webisode for the stats counterexample. -/
def wC4 : Webisode :=
  { title := "T4", series := "S", episode_number := 1, description := "d", sources := [kSrc] }

/-- Environment for the stats counterexample: every download fails, discovery
finds exactly one alternative, and every probe raises. -/
def envC4 : Env :=
  { fetchAttempt := fun _ _ => .dlError
    jitter := fun _ _ => 0
    search_archive_org := fun q => if q = "T4" then ["a1"] else []
    search_alternative_youtube := fun _ => []
    extract := fun _ => .err }

/-- The priorities of the sources passed to `download_with_source`, in the
order those fetches happen. -/
def fetchPriorities (tr : List Event) : List ℤ :=
  tr.filterMap (fun e => match e with | .fetch s => some s.priority | _ => none)

/-- Recognizer for download-attempt events of the retry trace. -/
def isAttemptEvent : RetryEvent → Bool
  | .attempt _ _ => true
  | .backoff _ _ => false

/-- Number of download attempts recorded in a retry trace. -/
def countAttempts (tr : List RetryEvent) : ℕ := tr.countP isAttemptEvent

/-- Number of backoff sleeps recorded in a retry trace. -/
def countBackoffs (tr : List RetryEvent) : ℕ := tr.countP (fun e => !isAttemptEvent e)

/-- The fetch oracle of the C5 witness: attempt 1 succeeds, others raise
`DownloadError`. -/
def c5Fetch : ℕ → AttemptOutcome := fun a => if a = 1 then .success else .dlError

/-- The jitter oracle of the C5 witness. -/
def c5Jit : ℕ → ℚ := fun _ => 0

/-! Section: C6: exponential backoff -/

/-- C6: `exponential_backoff attempt base jit` equals `base * 2 ^ attempt`
plus the uniform-[0,1) jitter draw, is therefore bounded below by
`base * 2 ^ attempt`, and with the jitter fixed at 0 it is monotonically
non-decreasing in the attempt number. -/
theorem c6_exponential_backoff (a : ℕ) (base jit : ℚ)
    (hb : 0 < base) (hj0 : 0 ≤ jit) (hj1 : jit < 1) :
    exponential_backoff a base jit = base * 2 ^ a + jit ∧
    base * 2 ^ a ≤ exponential_backoff a base jit ∧
    ∀ a1 a2 : ℕ, a1 ≤ a2 →
      exponential_backoff a1 base 0 ≤ exponential_backoff a2 base 0 := by
  refine ⟨rfl, ?_, ?_⟩
  · unfold exponential_backoff
    linarith
  · intro a1 a2 h
    unfold exponential_backoff
    have h2 : (2 : ℚ) ^ a1 ≤ 2 ^ a2 := by
      apply pow_le_pow_right₀ (by norm_num) h
    nlinarith

/-- Witness instantiating `c6_exponential_backoff` at attempt 2, base 1,
jitter 1/2. -/
theorem c6_exponential_backoff_witness :
    (0 : ℚ) < 1 ∧ (0 : ℚ) ≤ 1 / 2 ∧ (1 : ℚ) / 2 < 1 ∧
    (exponential_backoff 2 1 (1 / 2) = 1 * 2 ^ 2 + 1 / 2 ∧
     1 * 2 ^ 2 ≤ exponential_backoff 2 1 (1 / 2) ∧
     ∀ a1 a2 : ℕ, a1 ≤ a2 →
       exponential_backoff a1 1 0 ≤ exponential_backoff a2 1 0) :=
  ⟨by norm_num, by norm_num, by norm_num,
   c6_exponential_backoff 2 1 (1 / 2) (by norm_num) (by norm_num) (by norm_num)⟩

/-! Section: C5: the per-source retry loop -/

theorem countAttempts_cons_attempt (i t : ℕ) (tr : List RetryEvent) :
    countAttempts (.attempt i t :: tr) = countAttempts tr + 1 := by
  simp [countAttempts, List.countP_cons, isAttemptEvent]

theorem countAttempts_cons_backoff (i : ℕ) (d : ℚ) (tr : List RetryEvent) :
    countAttempts (.backoff i d :: tr) = countAttempts tr := by
  simp [countAttempts, List.countP_cons, isAttemptEvent]

theorem countBackoffs_cons_attempt (i t : ℕ) (tr : List RetryEvent) :
    countBackoffs (.attempt i t :: tr) = countBackoffs tr := by
  simp [countBackoffs, List.countP_cons, isAttemptEvent]

theorem countBackoffs_cons_backoff (i : ℕ) (d : ℚ) (tr : List RetryEvent) :
    countBackoffs (.backoff i d :: tr) = countBackoffs tr + 1 := by
  simp [countBackoffs, List.countP_cons, isAttemptEvent]

/-- Behaviour of the retry loop from an arbitrary start index `i` with
`fuel` iterations left, under the loop invariant `i + fuel = maxA`: every
recorded attempt has index in `[i, maxA)` and timeout `30 + idx * 15`; the
loop succeeds exactly when some attempt in `[i, maxA)` succeeds; on failure
it records `fuel` attempts and `fuel - 1` backoffs; on success it stops at
the first succeeding index `k`, having recorded `k + 1 - i` attempts and
`k - i` backoffs. -/
theorem retryLoop_spec (fetch : ℕ → AttemptOutcome) (jit : ℕ → ℚ) (maxA : ℕ) :
    ∀ fuel i, i + fuel = maxA →
      (∀ j t, RetryEvent.attempt j t ∈ (retryLoop fetch jit maxA i fuel).2 →
        i ≤ j ∧ j < maxA ∧ t = 30 + j * 15) ∧
      ((retryLoop fetch jit maxA i fuel).1 = true ↔
        ∃ a, i ≤ a ∧ a < maxA ∧ fetch a = .success) ∧
      ((retryLoop fetch jit maxA i fuel).1 = false →
        countAttempts (retryLoop fetch jit maxA i fuel).2 = fuel ∧
        countBackoffs (retryLoop fetch jit maxA i fuel).2 = fuel - 1) ∧
      ((retryLoop fetch jit maxA i fuel).1 = true →
        ∃ k, i ≤ k ∧ k < maxA ∧ fetch k = .success ∧
          (∀ j, i ≤ j → j < k → fetch j ≠ .success) ∧
          countAttempts (retryLoop fetch jit maxA i fuel).2 = k + 1 - i ∧
          countBackoffs (retryLoop fetch jit maxA i fuel).2 = k - i) := by
  intro fuel
  induction fuel with
  | zero =>
    intro i hinv
    refine ⟨?_, ?_, ?_, ?_⟩
    · intro j t hj
      simp [retryLoop] at hj
    · simp only [retryLoop]
      constructor
      · intro h; cases h
      · rintro ⟨a, ha1, ha2, _⟩
        omega
    · intro _
      simp [retryLoop, countAttempts, countBackoffs]
    · intro h
      simp [retryLoop] at h
  | succ fuel ih =>
    intro i hinv
    have hinv' : (i + 1) + fuel = maxA := by omega
    have hi : i < maxA := by omega
    obtain ⟨ihMem, ihIff, ihFail, ihSucc⟩ := ih (i + 1) hinv'
    cases hf : fetch i with
    | success =>
      have hred : retryLoop fetch jit maxA i (fuel + 1) =
          (true, [.attempt i (30 + i * 15)]) := by
        simp [retryLoop, hf]
      refine ⟨?_, ?_, ?_, ?_⟩
      · intro j t hj
        rw [hred] at hj
        simp at hj
        exact ⟨le_of_eq hj.1.symm, by omega, by omega⟩
      · rw [hred]
        simp only [true_iff]
        exact ⟨i, le_refl i, hi, hf⟩
      · intro h
        rw [hred] at h
        cases h
      · intro _
        refine ⟨i, le_refl i, hi, hf, ?_, ?_, ?_⟩
        · intro j hj1 hj2
          omega
        · rw [hred]
          simp [countAttempts, List.countP_cons, isAttemptEvent]
        · rw [hred]
          simp [countBackoffs, List.countP_cons, isAttemptEvent]
    | dlError =>
      by_cases hlt : i < maxA - 1
      · have hred : retryLoop fetch jit maxA i (fuel + 1) =
            ((retryLoop fetch jit maxA (i + 1) fuel).1,
             .attempt i (30 + i * 15) ::
              .backoff i (exponential_backoff i 2 (jit i)) ::
              (retryLoop fetch jit maxA (i + 1) fuel).2) := by
          simp [retryLoop, hf, hlt]
        have hfuel : 1 ≤ fuel := by omega
        refine ⟨?_, ?_, ?_, ?_⟩
        · intro j t hj
          rw [hred] at hj
          simp only [List.mem_cons] at hj
          rcases hj with h1 | h1 | h1
          · cases h1
            exact ⟨le_refl i, hi, rfl⟩
          · cases h1
          · obtain ⟨hj1, hj2, hj3⟩ := ihMem j t h1
            exact ⟨by omega, hj2, hj3⟩
        · rw [hred]
          rw [ihIff]
          constructor
          · rintro ⟨a, ha1, ha2, ha3⟩
            exact ⟨a, by omega, ha2, ha3⟩
          · rintro ⟨a, ha1, ha2, ha3⟩
            refine ⟨a, ?_, ha2, ha3⟩
            rcases Nat.eq_or_lt_of_le ha1 with h | h
            · rw [← h] at ha3
              rw [hf] at ha3
              cases ha3
            · omega
        · intro h
          rw [hred] at h
          simp only at h
          obtain ⟨hA, hB⟩ := ihFail h
          rw [hred]
          constructor
          · rw [countAttempts_cons_attempt, countAttempts_cons_backoff]
            omega
          · rw [countBackoffs_cons_attempt, countBackoffs_cons_backoff]
            omega
        · intro h
          rw [hred] at h
          simp only at h
          obtain ⟨k, hk1, hk2, hk3, hk4, hk5, hk6⟩ := ihSucc h
          refine ⟨k, by omega, hk2, hk3, ?_, ?_, ?_⟩
          · intro j hj1 hj2
            rcases Nat.eq_or_lt_of_le hj1 with hh | hh
            · rw [← hh, hf]
              intro hcon
              cases hcon
            · exact hk4 j (by omega) hj2
          · rw [hred]
            rw [countAttempts_cons_attempt, countAttempts_cons_backoff]
            omega
          · rw [hred]
            rw [countBackoffs_cons_attempt, countBackoffs_cons_backoff]
            omega
      · have hfuel0 : fuel = 0 := by omega
        subst hfuel0
        have hred : retryLoop fetch jit maxA i 1 =
            (false, [.attempt i (30 + i * 15)]) := by
          simp [retryLoop, hf, hlt]
        refine ⟨?_, ?_, ?_, ?_⟩
        · intro j t hj
          rw [hred] at hj
          simp at hj
          exact ⟨le_of_eq hj.1.symm, by omega, by omega⟩
        · rw [hred]
          simp only [Bool.false_eq_true, false_iff]
          rintro ⟨a, ha1, ha2, ha3⟩
          have : a = i := by omega
          rw [this, hf] at ha3
          cases ha3
        · intro _
          rw [hred]
          constructor
          · simp [countAttempts, List.countP_cons, isAttemptEvent]
          · simp [countBackoffs, List.countP_cons, isAttemptEvent]
        · intro h
          rw [hred] at h
          cases h
    | otherError =>
      by_cases hlt : i < maxA - 1
      · have hred : retryLoop fetch jit maxA i (fuel + 1) =
            ((retryLoop fetch jit maxA (i + 1) fuel).1,
             .attempt i (30 + i * 15) ::
              .backoff i (exponential_backoff i 1 (jit i)) ::
              (retryLoop fetch jit maxA (i + 1) fuel).2) := by
          simp [retryLoop, hf, hlt]
        have hfuel : 1 ≤ fuel := by omega
        refine ⟨?_, ?_, ?_, ?_⟩
        · intro j t hj
          rw [hred] at hj
          simp only [List.mem_cons] at hj
          rcases hj with h1 | h1 | h1
          · cases h1
            exact ⟨le_refl i, hi, rfl⟩
          · cases h1
          · obtain ⟨hj1, hj2, hj3⟩ := ihMem j t h1
            exact ⟨by omega, hj2, hj3⟩
        · rw [hred]
          rw [ihIff]
          constructor
          · rintro ⟨a, ha1, ha2, ha3⟩
            exact ⟨a, by omega, ha2, ha3⟩
          · rintro ⟨a, ha1, ha2, ha3⟩
            refine ⟨a, ?_, ha2, ha3⟩
            rcases Nat.eq_or_lt_of_le ha1 with h | h
            · rw [← h] at ha3
              rw [hf] at ha3
              cases ha3
            · omega
        · intro h
          rw [hred] at h
          simp only at h
          obtain ⟨hA, hB⟩ := ihFail h
          rw [hred]
          constructor
          · rw [countAttempts_cons_attempt, countAttempts_cons_backoff]
            omega
          · rw [countBackoffs_cons_attempt, countBackoffs_cons_backoff]
            omega
        · intro h
          rw [hred] at h
          simp only at h
          obtain ⟨k, hk1, hk2, hk3, hk4, hk5, hk6⟩ := ihSucc h
          refine ⟨k, by omega, hk2, hk3, ?_, ?_, ?_⟩
          · intro j hj1 hj2
            rcases Nat.eq_or_lt_of_le hj1 with hh | hh
            · rw [← hh, hf]
              intro hcon
              cases hcon
            · exact hk4 j (by omega) hj2
          · rw [hred]
            rw [countAttempts_cons_attempt, countAttempts_cons_backoff]
            omega
          · rw [hred]
            rw [countBackoffs_cons_attempt, countBackoffs_cons_backoff]
            omega
      · have hfuel0 : fuel = 0 := by omega
        subst hfuel0
        have hred : retryLoop fetch jit maxA i 1 =
            (false, [.attempt i (30 + i * 15)]) := by
          simp [retryLoop, hf, hlt]
        refine ⟨?_, ?_, ?_, ?_⟩
        · intro j t hj
          rw [hred] at hj
          simp at hj
          exact ⟨le_of_eq hj.1.symm, by omega, by omega⟩
        · rw [hred]
          simp only [Bool.false_eq_true, false_iff]
          rintro ⟨a, ha1, ha2, ha3⟩
          have : a = i := by omega
          rw [this, hf] at ha3
          cases ha3
        · intro _
          rw [hred]
          constructor
          · simp [countAttempts, List.countP_cons, isAttemptEvent]
          · simp [countBackoffs, List.countP_cons, isAttemptEvent]
        · intro h
          rw [hred] at h
          cases h

/-- C5: with `max_attempts ≥ 1`, `download_with_source_retry` makes at most
`max_attempts` attempts against the one source; the 0-based attempt `a`
configures socket timeout `30 + a * 15`; it succeeds exactly when some
attempt below `max_attempts` succeeds, stopping at the first success after
`k + 1` attempts and `k` backoff sleeps; and it returns `False` only after
all `max_attempts` attempts failed, having slept after every attempt but the
last (`max_attempts - 1` backoffs). -/
theorem c5_retry (fetch : ℕ → AttemptOutcome) (jit : ℕ → ℚ) (m : ℕ) (h : 1 ≤ m) :
    countAttempts (download_with_source_retry fetch jit m).2 ≤ m ∧
    (∀ j t, RetryEvent.attempt j t ∈ (download_with_source_retry fetch jit m).2 →
      t = 30 + j * 15) ∧
    ((download_with_source_retry fetch jit m).1 = true ↔
      ∃ a, a < m ∧ fetch a = .success) ∧
    ((download_with_source_retry fetch jit m).1 = false →
      (∀ a, a < m → fetch a ≠ .success) ∧
      countAttempts (download_with_source_retry fetch jit m).2 = m ∧
      countBackoffs (download_with_source_retry fetch jit m).2 = m - 1) ∧
    ((download_with_source_retry fetch jit m).1 = true →
      ∃ k, k < m ∧ fetch k = .success ∧ (∀ j, j < k → fetch j ≠ .success) ∧
        countAttempts (download_with_source_retry fetch jit m).2 = k + 1 ∧
        countBackoffs (download_with_source_retry fetch jit m).2 = k) := by
  obtain ⟨hMem, hIff, hFail, hSucc⟩ := retryLoop_spec fetch jit m m 0 (by omega)
  unfold download_with_source_retry
  refine ⟨?_, ?_, ?_, ?_, ?_⟩
  · cases hb : (retryLoop fetch jit m 0 m).1
    · have := (hFail hb).1
      omega
    · obtain ⟨k, _, hk2, _, _, hc, _⟩ := hSucc hb
      omega
  · intro j t hjt
    exact (hMem j t hjt).2.2
  · rw [hIff]
    constructor
    · rintro ⟨a, _, ha2, ha3⟩
      exact ⟨a, ha2, ha3⟩
    · rintro ⟨a, ha2, ha3⟩
      exact ⟨a, Nat.zero_le a, ha2, ha3⟩
  · intro hb
    refine ⟨?_, hFail hb⟩
    intro a ha hsuc
    have hcon : (retryLoop fetch jit m 0 m).1 = true :=
      hIff.mpr ⟨a, Nat.zero_le a, ha, hsuc⟩
    rw [hb] at hcon
    cases hcon
  · intro hb
    obtain ⟨k, hk1, hk2, hk3, hk4, hk5, hk6⟩ := hSucc hb
    exact ⟨k, hk2, hk3, fun j hj => hk4 j (Nat.zero_le j) hj, by omega, by omega⟩

/-- Witness instantiating `c5_retry` with `max_attempts = 3` and a source
whose second attempt succeeds. -/
theorem c5_retry_witness :
    1 ≤ 3 ∧
    (countAttempts (download_with_source_retry c5Fetch c5Jit 3).2 ≤ 3 ∧
     (∀ j t, RetryEvent.attempt j t ∈ (download_with_source_retry c5Fetch c5Jit 3).2 →
       t = 30 + j * 15) ∧
     ((download_with_source_retry c5Fetch c5Jit 3).1 = true ↔
       ∃ a, a < 3 ∧ c5Fetch a = .success) ∧
     ((download_with_source_retry c5Fetch c5Jit 3).1 = false →
       (∀ a, a < 3 → c5Fetch a ≠ .success) ∧
       countAttempts (download_with_source_retry c5Fetch c5Jit 3).2 = 3 ∧
       countBackoffs (download_with_source_retry c5Fetch c5Jit 3).2 = 3 - 1) ∧
     ((download_with_source_retry c5Fetch c5Jit 3).1 = true →
       ∃ k, k < 3 ∧ c5Fetch k = .success ∧ (∀ j, j < k → c5Fetch j ≠ .success) ∧
         countAttempts (download_with_source_retry c5Fetch c5Jit 3).2 = k + 1 ∧
         countBackoffs (download_with_source_retry c5Fetch c5Jit 3).2 = k)) :=
  ⟨by norm_num, c5_retry c5Fetch c5Jit 3 (by norm_num)⟩

/-! Section: C7: the discovery relevance filter -/

/-- C7: the relevance filter accepts a result exactly when the title is
non-empty and either case-insensitively contains the query or contains one of
the fixed TWD keywords; in particular the two concrete examples of the spec
are settled as stated. -/
theorem c7_relevance :
    (∀ q t : String, is_relevant_result q t = true ↔
      (t ≠ "" ∧ (containsSub (lowerL q) (lowerL t) = true ∨
        ∃ k ∈ twd_keywords, containsSub k.toList (lowerL t) = true))) ∧
    is_relevant_result "Torn Apart" "Unrelated Show Episode 3" = false ∧
    is_relevant_result "Torn Apart" "The Walking Dead: Torn Apart Part 1" = true := by
  refine ⟨?_, by decide, by decide⟩
  intro q t
  unfold is_relevant_result
  by_cases ht : t = ""
  · simp [ht]
  · by_cases hc : containsSub (lowerL q) (lowerL t) = true
    · simp [ht, hc]
    · simp [ht, hc, List.any_eq_true]

/-! Section: C8 and C9: the source probe -/

/-- C8: any exception raised by the probe body of `test_source` is caught by
its handler: the source is marked not working and the probe returns `False`
to its caller instead of propagating the error. -/
theorem c8_probe_catches (r : ExtractResult) (s : WebisodeSource)
    (h : test_source_inner r s = Except.error ()) :
    test_source r s = (false, { s with working := some false }) := by
  unfold test_source
  rw [h]

/-- Witness instantiating `c8_probe_catches` at a raising probe of
`probeSrc`. -/
theorem c8_probe_catches_witness :
    test_source_inner .err probeSrc = Except.error () ∧
    test_source .err probeSrc = (false, { probeSrc with working := some false }) :=
  ⟨rfl, c8_probe_catches .err probeSrc rfl⟩

/-- C9 counterexample: when `extract_info` returns a falsy value without
raising, `test_source` returns `False` but never assigns the `working`
field, which stays `None` — so the probe does not set the health field
exactly once on every call. -/
theorem c9_counterexample :
    (test_source (.ok false) probeSrc).2.working = none ∧
    (test_source (.ok false) probeSrc).1 = false :=
  ⟨rfl, rfl⟩

/-- C9 amended: a probe call never changes any field other than `working`;
it sets `working := True` when the extraction yields a truthy info object,
sets `working := False` when the extraction raises, and leaves the source
entirely unchanged (in particular `working` unassigned) when the extraction
returns a falsy value. -/
theorem c9_amended (r : ExtractResult) (s : WebisodeSource) :
    ((test_source r s).2.url = s.url ∧
     (test_source r s).2.source_type = s.source_type ∧
     (test_source r s).2.quality = s.quality ∧
     (test_source r s).2.priority = s.priority) ∧
    (r = .ok true → test_source r s = (true, { s with working := some true })) ∧
    (r = .err → test_source r s = (false, { s with working := some false })) ∧
    (r = .ok false → test_source r s = (false, s)) := by
  cases r with
  | err =>
    refine ⟨⟨rfl, rfl, rfl, rfl⟩, ?_, ?_, ?_⟩
    · rintro ⟨⟩
    · intro _; rfl
    · rintro ⟨⟩
  | ok b =>
    cases b with
    | true =>
      refine ⟨⟨rfl, rfl, rfl, rfl⟩, ?_, ?_, ?_⟩
      · intro _; rfl
      · rintro ⟨⟩
      · intro h; exact absurd h (by simp)
    | false =>
      refine ⟨⟨rfl, rfl, rfl, rfl⟩, ?_, ?_, ?_⟩
      · intro h; exact absurd h (by simp)
      · rintro ⟨⟩
      · intro _; rfl

/-! Section: Structure of a `download_webisode` run -/

theorem trySources_sublist (env : Env) (l : List WebisodeSource) :
    List.Sublist (trySources env l).2 l := by
  induction l with
  | nil => exact List.Sublist.refl []
  | cons s rest ih =>
    simp only [trySources]
    by_cases h : download_with_source env s = true
    · rw [if_pos h]
      exact List.Sublist.cons₂ s (List.nil_sublist rest)
    · rw [if_neg h]
      exact List.Sublist.cons₂ s ih

theorem sorted_sortByPriority (l : List WebisodeSource) :
    List.Sorted priorityLE (sortByPriority l) :=
  List.sorted_insertionSort priorityLE l

theorem test_source_url (r : ExtractResult) (s : WebisodeSource) :
    ((test_source r s).2).url = s.url := by
  cases r with
  | err => rfl
  | ok b => cases b <;> rfl

theorem probeFilter_cons (env : Env) (s : WebisodeSource) (rest : List WebisodeSource) :
    probeFilter env (s :: rest) =
      if (test_source (env.extract s) s).1 = true
      then (test_source (env.extract s) s).2 :: probeFilter env rest
      else probeFilter env rest := by
  by_cases h : (test_source (env.extract s) s).1 = true
  · simp [probeFilter, List.filterMap_cons, h]
  · simp [probeFilter, List.filterMap_cons, h]

theorem probeFilter_map_url_sublist (env : Env) (l : List WebisodeSource) :
    List.Sublist ((probeFilter env l).map WebisodeSource.url)
      (l.map WebisodeSource.url) := by
  induction l with
  | nil => exact List.Sublist.refl []
  | cons s rest ih =>
    rw [probeFilter_cons, List.map_cons]
    by_cases h : (test_source (env.extract s) s).1 = true
    · rw [if_pos h, List.map_cons, test_source_url]
      exact List.Sublist.cons₂ s.url ih
    · rw [if_neg h]
      exact List.Sublist.cons s.url ih

theorem download_webisode_known_true (env : Env) (w : Webisode) (stats : Stats)
    (m : ℕ) (ks : List WebisodeSource)
    (hk : trySources env (sortByPriority w.sources) = (true, ks)) :
    download_webisode env w stats m =
      (true,
       { stats with attempted := stats.attempted + 1, successful := stats.successful + 1 },
       ks.map Event.fetch) := by
  unfold download_webisode
  rw [hk]

theorem download_webisode_known_false (env : Env) (w : Webisode) (stats : Stats)
    (m : ℕ) (ks : List WebisodeSource)
    (hk : trySources env (sortByPriority w.sources) = (false, ks)) :
    download_webisode env w stats m =
      discoveryPhase env ks (find_alternatives env w) stats := by
  unfold download_webisode
  rw [hk]

theorem discoveryPhase_nil (env : Env) (ks : List WebisodeSource) (stats : Stats) :
    discoveryPhase env ks [] stats =
      (false,
       { stats with attempted := stats.attempted + 1, failed := stats.failed + 1 },
       ks.map Event.fetch ++ [Event.discover]) := rfl

theorem discoveryPhase_cons (env : Env) (ks : List WebisodeSource)
    (a : WebisodeSource) (rest : List WebisodeSource) (stats : Stats) :
    discoveryPhase env ks (a :: rest) stats =
      finishAlt stats ks ((a :: rest).take 5)
        (trySources env (probeFilter env ((a :: rest).take 5))) := rfl

theorem finishAlt_true (stats : Stats) (ks tested fs : List WebisodeSource) :
    finishAlt stats ks tested (true, fs) =
      (true,
       { stats with attempted := stats.attempted + 1, successful := stats.successful + 1,
                    alternatives_used := stats.alternatives_used + 1 },
       ks.map Event.fetch ++ Event.discover ::
         (tested.map Event.probe ++ fs.map Event.fetch)) := rfl

theorem finishAlt_false (stats : Stats) (ks tested fs : List WebisodeSource) :
    finishAlt stats ks tested (false, fs) =
      (false,
       { stats with attempted := stats.attempted + 1, failed := stats.failed + 1,
                    alternatives_used := stats.alternatives_used + 1 },
       ks.map Event.fetch ++ Event.discover ::
         (tested.map Event.probe ++ fs.map Event.fetch)) := rfl

/-- Every `download_webisode` run matches exactly one of four shapes:
first-phase success, discovery with no alternatives, discovery succeeding on
an alternative, or total failure after discovery. -/
theorem download_webisode_cases (env : Env) (w : Webisode) (stats : Stats) (m : ℕ) :
    (∃ ks, trySources env (sortByPriority w.sources) = (true, ks) ∧
      download_webisode env w stats m =
        (true,
         { stats with attempted := stats.attempted + 1, successful := stats.successful + 1 },
         ks.map Event.fetch)) ∨
    (∃ ks, trySources env (sortByPriority w.sources) = (false, ks) ∧
      find_alternatives env w = [] ∧
      download_webisode env w stats m =
        (false,
         { stats with attempted := stats.attempted + 1, failed := stats.failed + 1 },
         ks.map Event.fetch ++ [Event.discover])) ∨
    (∃ ks a rest fs b, trySources env (sortByPriority w.sources) = (false, ks) ∧
      find_alternatives env w = a :: rest ∧
      trySources env (probeFilter env ((a :: rest).take 5)) = (b, fs) ∧
      download_webisode env w stats m =
        (b,
         { stats with attempted := stats.attempted + 1,
                      successful := stats.successful + (if b then 1 else 0),
                      failed := stats.failed + (if b then 0 else 1),
                      alternatives_used := stats.alternatives_used + 1 },
         ks.map Event.fetch ++ Event.discover ::
           (((a :: rest).take 5).map Event.probe ++ fs.map Event.fetch))) := by
  rcases hk : trySources env (sortByPriority w.sources) with ⟨bk, ks⟩
  cases bk
  · rcases ha : find_alternatives env w with _ | ⟨a, rest⟩
    · refine Or.inr (Or.inl ⟨ks, rfl, rfl, ?_⟩)
      rw [download_webisode_known_false env w stats m ks hk, ha, discoveryPhase_nil]
    · rcases ht : trySources env (probeFilter env ((a :: rest).take 5)) with ⟨bt, fs⟩
      refine Or.inr (Or.inr ⟨ks, a, rest, fs, bt, rfl, rfl, ht, ?_⟩)
      rw [download_webisode_known_false env w stats m ks hk, ha, discoveryPhase_cons, ht]
      cases bt
      · rw [finishAlt_false]
        simp
      · rw [finishAlt_true]
        simp
  · exact Or.inl ⟨ks, rfl, download_webisode_known_true env w stats m ks hk⟩

/-- Witness instantiating `c9_amended` at a raising probe of `probeSrc`. -/
theorem c9_amended_witness :
    ((test_source .err probeSrc).2.url = probeSrc.url ∧
     (test_source .err probeSrc).2.source_type = probeSrc.source_type ∧
     (test_source .err probeSrc).2.quality = probeSrc.quality ∧
     (test_source .err probeSrc).2.priority = probeSrc.priority) ∧
    (ExtractResult.err = .ok true →
      test_source .err probeSrc = (true, { probeSrc with working := some true })) ∧
    (ExtractResult.err = .err →
      test_source .err probeSrc = (false, { probeSrc with working := some false })) ∧
    (ExtractResult.err = .ok false →
      test_source .err probeSrc = (false, probeSrc)) :=
  c9_amended .err probeSrc

theorem trySources_sorted (env : Env) (l : List WebisodeSource) (b : Bool)
    (ks : List WebisodeSource) (h : trySources env l = (b, ks))
    (hs : List.Sorted priorityLE l) : List.Sorted priorityLE ks := by
  have hsub := trySources_sublist env l
  rw [h] at hsub
  exact List.Pairwise.sublist hsub hs

/-! Section: C1: per-item stats bookkeeping -/

/-- C1: each `download_webisode` call bumps `attempted` by exactly one and
exactly one of `successful` (on a `True` return) or `failed` (on a `False`
return) by exactly one; therefore `attempted = successful + failed` is
preserved and every counter is monotonically non-decreasing. -/
theorem c1_stats_invariant (env : Env) (w : Webisode) (stats : Stats) (m : ℕ)
    (h : stats.attempted = stats.successful + stats.failed) :
    (download_webisode env w stats m).2.1.attempted = stats.attempted + 1 ∧
    (download_webisode env w stats m).2.1.successful +
      (download_webisode env w stats m).2.1.failed =
      stats.successful + stats.failed + 1 ∧
    ((download_webisode env w stats m).1 = true →
      (download_webisode env w stats m).2.1.successful = stats.successful + 1 ∧
      (download_webisode env w stats m).2.1.failed = stats.failed) ∧
    ((download_webisode env w stats m).1 = false →
      (download_webisode env w stats m).2.1.failed = stats.failed + 1 ∧
      (download_webisode env w stats m).2.1.successful = stats.successful) ∧
    (download_webisode env w stats m).2.1.attempted =
      (download_webisode env w stats m).2.1.successful +
        (download_webisode env w stats m).2.1.failed ∧
    stats.attempted ≤ (download_webisode env w stats m).2.1.attempted ∧
    stats.successful ≤ (download_webisode env w stats m).2.1.successful ∧
    stats.failed ≤ (download_webisode env w stats m).2.1.failed ∧
    stats.alternatives_used ≤ (download_webisode env w stats m).2.1.alternatives_used := by
  rcases download_webisode_cases env w stats m with
    ⟨ks, hk, he⟩ | ⟨ks, hk, ha, he⟩ | ⟨ks, a, rest, fs, b, hk, ha, ht, he⟩
  · rw [he]
    simp
    omega
  · rw [he]
    simp
    omega
  · rw [he]
    cases b <;> simp <;> omega

/-- Witness instantiating `c1_stats_invariant` on a fresh stats record and an
item whose only source downloads at once. -/
theorem c1_stats_invariant_witness :
    (Stats.mk 0 0 0 0).attempted = (Stats.mk 0 0 0 0).successful + (Stats.mk 0 0 0 0).failed ∧
    ((download_webisode envOK wOK ⟨0, 0, 0, 0⟩ 3).2.1.attempted = (Stats.mk 0 0 0 0).attempted + 1 ∧
     (download_webisode envOK wOK ⟨0, 0, 0, 0⟩ 3).2.1.successful +
       (download_webisode envOK wOK ⟨0, 0, 0, 0⟩ 3).2.1.failed =
       (Stats.mk 0 0 0 0).successful + (Stats.mk 0 0 0 0).failed + 1 ∧
     ((download_webisode envOK wOK ⟨0, 0, 0, 0⟩ 3).1 = true →
       (download_webisode envOK wOK ⟨0, 0, 0, 0⟩ 3).2.1.successful = (Stats.mk 0 0 0 0).successful + 1 ∧
       (download_webisode envOK wOK ⟨0, 0, 0, 0⟩ 3).2.1.failed = (Stats.mk 0 0 0 0).failed) ∧
     ((download_webisode envOK wOK ⟨0, 0, 0, 0⟩ 3).1 = false →
       (download_webisode envOK wOK ⟨0, 0, 0, 0⟩ 3).2.1.failed = (Stats.mk 0 0 0 0).failed + 1 ∧
       (download_webisode envOK wOK ⟨0, 0, 0, 0⟩ 3).2.1.successful = (Stats.mk 0 0 0 0).successful) ∧
     (download_webisode envOK wOK ⟨0, 0, 0, 0⟩ 3).2.1.attempted =
       (download_webisode envOK wOK ⟨0, 0, 0, 0⟩ 3).2.1.successful +
         (download_webisode envOK wOK ⟨0, 0, 0, 0⟩ 3).2.1.failed ∧
     (Stats.mk 0 0 0 0).attempted ≤ (download_webisode envOK wOK ⟨0, 0, 0, 0⟩ 3).2.1.attempted ∧
     (Stats.mk 0 0 0 0).successful ≤ (download_webisode envOK wOK ⟨0, 0, 0, 0⟩ 3).2.1.successful ∧
     (Stats.mk 0 0 0 0).failed ≤ (download_webisode envOK wOK ⟨0, 0, 0, 0⟩ 3).2.1.failed ∧
     (Stats.mk 0 0 0 0).alternatives_used ≤
       (download_webisode envOK wOK ⟨0, 0, 0, 0⟩ 3).2.1.alternatives_used) :=
  ⟨rfl, c1_stats_invariant envOK wOK ⟨0, 0, 0, 0⟩ 3 rfl⟩

/-! Section: C3: short circuit on the first known source -/

/-- C3: when the first source of the priority-sorted known list downloads
successfully, `download_webisode` returns `True` with `attempted` and
`successful` bumped and a trace consisting of that single fetch: no other
known source is fetched, `find_alternatives` is never called, and no source
is probed. -/
theorem c3_short_circuit (env : Env) (w : Webisode) (stats : Stats) (m : ℕ)
    (s0 : WebisodeSource) (rest : List WebisodeSource)
    (h1 : sortByPriority w.sources = s0 :: rest)
    (h2 : download_with_source env s0 = true) :
    download_webisode env w stats m =
      (true,
       { stats with attempted := stats.attempted + 1, successful := stats.successful + 1 },
       [Event.fetch s0]) ∧
    Event.discover ∉ (download_webisode env w stats m).2.2 ∧
    (∀ s, Event.probe s ∉ (download_webisode env w stats m).2.2) := by
  have hts : trySources env (sortByPriority w.sources) = (true, [s0]) := by
    rw [h1]
    simp only [trySources]
    rw [if_pos h2]
  have he := download_webisode_known_true env w stats m [s0] hts
  refine ⟨he, ?_, ?_⟩
  · rw [he]
    simp
  · intro s
    rw [he]
    simp

/-- Witness instantiating `c3_short_circuit` on an item with one immediately
succeeding source. -/
theorem c3_short_circuit_witness :
    sortByPriority wOK.sources = kSrc :: [] ∧
    download_with_source envOK kSrc = true ∧
    (download_webisode envOK wOK ⟨0, 0, 0, 0⟩ 3 =
      (true,
       { Stats.mk 0 0 0 0 with attempted := (Stats.mk 0 0 0 0).attempted + 1,
                               successful := (Stats.mk 0 0 0 0).successful + 1 },
       [Event.fetch kSrc]) ∧
     Event.discover ∉ (download_webisode envOK wOK ⟨0, 0, 0, 0⟩ 3).2.2 ∧
     (∀ s, Event.probe s ∉ (download_webisode envOK wOK ⟨0, 0, 0, 0⟩ 3).2.2)) :=
  ⟨rfl, rfl, c3_short_circuit envOK wOK ⟨0, 0, 0, 0⟩ 3 kSrc [] rfl rfl⟩

/-! Section: C10: the unused max_retries parameter -/

/-- C10: two `download_webisode` calls differing only in `max_retries` return
identical results, stats and traces — the parameter is never read — and every
per-source fetch goes through `download_with_source`, which always uses
exactly 3 attempts of the retry logic. -/
theorem c10_max_retries_unused (env : Env) (w : Webisode) (stats : Stats)
    (m1 m2 : ℕ) (s : WebisodeSource) :
    download_webisode env w stats m1 = download_webisode env w stats m2 ∧
    download_with_source env s =
      (download_with_source_retry (env.fetchAttempt s) (env.jitter s) 3).1 :=
  ⟨rfl, rfl⟩

/-! Section: C4: the alternatives_used counter -/

/-- C4 counterexample: in `envC4` discovery yields exactly one alternative but
its probe raises, so no discovered source is probe-reachable; the claim says
`alternatives_used` must then stay unchanged, yet the code has already
incremented it from 0 to 1 when the alternatives list turned out non-empty. -/
theorem c4_counterexample :
    (find_alternatives envC4 wC4).length = 1 ∧
    probeFilter envC4 ((find_alternatives envC4 wC4).take 5) = [] ∧
    (download_webisode envC4 wC4 ⟨0, 0, 0, 0⟩ 3).2.1.alternatives_used = 1 :=
  ⟨by decide, by decide, by decide⟩

/-- C4 amended: `alternatives_used` is incremented exactly once iff the known
phase failed and discovery yielded a non-empty alternatives list (whether or
not any alternative passes its probe), and is unchanged otherwise; it never
exceeds `attempted`. -/
theorem c4_amended (env : Env) (w : Webisode) (stats : Stats) (m : ℕ)
    (h : stats.alternatives_used ≤ stats.attempted) :
    ((download_webisode env w stats m).2.1.alternatives_used =
        stats.alternatives_used + 1 ↔
      ((trySources env (sortByPriority w.sources)).1 = false ∧
       find_alternatives env w ≠ [])) ∧
    ((download_webisode env w stats m).2.1.alternatives_used =
        stats.alternatives_used ↔
      ¬ ((trySources env (sortByPriority w.sources)).1 = false ∧
         find_alternatives env w ≠ [])) ∧
    (download_webisode env w stats m).2.1.alternatives_used ≤
      (download_webisode env w stats m).2.1.attempted := by
  rcases download_webisode_cases env w stats m with
    ⟨ks, hk, he⟩ | ⟨ks, hk, ha, he⟩ | ⟨ks, a, rest, fs, b, hk, ha, ht, he⟩
  · rw [he, hk]
    refine ⟨?_, ?_, ?_⟩
    · simp
      try omega
    · simp
      try omega
    · simp
      try omega
  · rw [he, hk, ha]
    refine ⟨?_, ?_, ?_⟩
    · simp
      try omega
    · simp
      try omega
    · simp
      try omega
  · rw [he, hk, ha]
    refine ⟨?_, ?_, ?_⟩
    · simp
      try omega
    · simp
      try omega
    · simp
      try omega

/-- Witness instantiating `c4_amended` on the discovery environment with an
unreachable alternative. -/
theorem c4_amended_witness :
    (Stats.mk 0 0 0 0).alternatives_used ≤ (Stats.mk 0 0 0 0).attempted ∧
    (((download_webisode envC4 wC4 ⟨0, 0, 0, 0⟩ 3).2.1.alternatives_used =
        (Stats.mk 0 0 0 0).alternatives_used + 1 ↔
      ((trySources envC4 (sortByPriority wC4.sources)).1 = false ∧
       find_alternatives envC4 wC4 ≠ [])) ∧
     ((download_webisode envC4 wC4 ⟨0, 0, 0, 0⟩ 3).2.1.alternatives_used =
        (Stats.mk 0 0 0 0).alternatives_used ↔
      ¬ ((trySources envC4 (sortByPriority wC4.sources)).1 = false ∧
         find_alternatives envC4 wC4 ≠ [])) ∧
     (download_webisode envC4 wC4 ⟨0, 0, 0, 0⟩ 3).2.1.alternatives_used ≤
       (download_webisode envC4 wC4 ⟨0, 0, 0, 0⟩ 3).2.1.attempted) :=
  ⟨Nat.le_refl 0, c4_amended envC4 wC4 ⟨0, 0, 0, 0⟩ 3 (Nat.le_refl 0)⟩

/-! Section: C2: ordering of fetch attempts -/

/-- C2 counterexample: in `envC2` the discovered alternatives are attempted in
discovery order — a priority-2 YouTube source before a priority-1 archive
source — so the sequence of fetched priorities of the run is `[1, 2, 1]`,
which is not ascending; the fetch attempts over discovered sources do not
follow ascending priority order. -/
theorem c2_counterexample :
    fetchPriorities (download_webisode envC2 wOK ⟨0, 0, 0, 0⟩ 3).2.2 = [1, 2, 1] ∧
    ¬ List.Sorted (· ≤ ·)
        (fetchPriorities (download_webisode envC2 wOK ⟨0, 0, 0, 0⟩ 3).2.2) :=
  ⟨by decide, by decide⟩

theorem trySources_exhausts (env : Env) (l : List WebisodeSource)
    (ks : List WebisodeSource) (h : trySources env l = (false, ks)) : ks = l := by
  induction l generalizing ks with
  | nil =>
    simp only [trySources] at h
    injection h with _ h2
    exact h2.symm
  | cons s rest ih =>
    simp only [trySources] at h
    by_cases hd : download_with_source env s = true
    · rw [if_pos hd] at h
      injection h with h1 _
      cases h1
    · rw [if_neg hd] at h
      injection h with h1 h2
      have hrest : trySources env rest = (false, (trySources env rest).2) := by
        rw [← h1]
      rw [← h2, ih (trySources env rest).2 hrest]

/-- C2 amended: the trace of every run starts with a block of known-source
fetches — sources drawn in order from the priority-sorted known list, hence
in ascending priority order — and when discovery happens that block is the
whole sorted known list (every known source exhausted before the single
discovery event), followed by the probes and the discovered-source fetches,
which follow the order of the discovery result list (not necessarily
ascending priority). -/
theorem c2_amended (env : Env) (w : Webisode) (stats : Stats) (m : ℕ) :
    ∃ ks ds,
      (download_webisode env w stats m).2.2 = ks.map Event.fetch ++ ds ∧
      List.Sublist ks (sortByPriority w.sources) ∧
      List.Sorted priorityLE ks ∧
      (ds = [] ∨
        (ks = sortByPriority w.sources ∧
         ∃ (tested fs : List WebisodeSource),
           ds = Event.discover :: (tested.map Event.probe ++ fs.map Event.fetch) ∧
           List.Sublist (fs.map WebisodeSource.url)
             ((find_alternatives env w).map WebisodeSource.url))) := by
  rcases download_webisode_cases env w stats m with
    ⟨ks, hk, he⟩ | ⟨ks, hk, ha, he⟩ | ⟨ks, a, rest, fs, b, hk, ha, ht, he⟩
  · refine ⟨ks, [], ?_, ?_, ?_, Or.inl rfl⟩
    · rw [he]
      simp
    · have hsub := trySources_sublist env (sortByPriority w.sources)
      rw [hk] at hsub
      exact hsub
    · exact trySources_sorted env _ true ks hk (sorted_sortByPriority w.sources)
  · have hex := trySources_exhausts env (sortByPriority w.sources) ks hk
    refine ⟨ks, [Event.discover], ?_, ?_, ?_, Or.inr ⟨hex, [], [], rfl, ?_⟩⟩
    · rw [he]
    · rw [hex]
    · exact trySources_sorted env _ false ks hk (sorted_sortByPriority w.sources)
    · rw [ha]
  · have hex := trySources_exhausts env (sortByPriority w.sources) ks hk
    refine ⟨ks,
      Event.discover :: (((a :: rest).take 5).map Event.probe ++ fs.map Event.fetch),
      ?_, ?_, ?_, Or.inr ⟨hex, (a :: rest).take 5, fs, rfl, ?_⟩⟩
    · rw [he]
    · rw [hex]
    · exact trySources_sorted env _ false ks hk (sorted_sortByPriority w.sources)
    · rw [ha]
      have h1 : List.Sublist fs (probeFilter env ((a :: rest).take 5)) := by
        have hsub := trySources_sublist env (probeFilter env ((a :: rest).take 5))
        rw [ht] at hsub
        exact hsub
      have h2 := List.Sublist.map WebisodeSource.url h1
      have h3 := probeFilter_map_url_sublist env ((a :: rest).take 5)
      have h4 := List.Sublist.map WebisodeSource.url (List.take_sublist 5 (a :: rest))
      exact h2.trans (h3.trans h4)

end TWD
